import Mathlib

/-!
Verification development for the `daviConverterTui` repository: a terminal
front-end that drives an external `ffmpeg` process and reports conversion
progress. The definitions below are a shallow embedding of the Go source
(`main.go` and the TUI model file). Floating-point numbers (`float64`) are
modelled as rationals (`ℚ`); strings are Lean `String`s, with character-level
operations carried out on `List Char`.
-/

/-- Model of Go `strings.HasPrefix` at the character-list level: `listStarts
pat s` is true iff `s` begins with `pat`. -/
def listStarts : List Char → List Char → Bool
  | [], _ => true
  | _ :: _, [] => false
  | p :: ps, c :: cs => (p == c) && listStarts ps cs

/-- Model of Go `strings.Contains` at the character-list level: `listHasSub
pat s` is true iff `pat` occurs contiguously somewhere in `s`. -/
def listHasSub (pat : List Char) : List Char → Bool
  | [] => pat.isEmpty
  | c :: cs => listStarts pat (c :: cs) || listHasSub pat cs

/-- Model of Go `strings.Contains(s, pat)`. -/
def goContains (s pat : String) : Bool :=
  listHasSub pat.toList s.toList

/-- Numeric value of a list of decimal digit characters (most significant
first), as used when modelling Go `strconv.ParseFloat` on decimal input. -/
def natOfDigits (cs : List Char) : ℕ :=
  cs.foldl (fun a c => a * 10 + (c.toNat - 48)) 0

/-- True iff every character of the list is a decimal digit. -/
def allDigits (cs : List Char) : Bool :=
  cs.all (fun c => c.isDigit)

/-- Unsigned decimal part of the `strconv.ParseFloat` model: digits with at
most one decimal point, at least one digit overall. Returns the exact
rational value. -/
def parseUnsignedQ (cs : List Char) : Option ℚ :=
  match cs.splitOn '.' with
  | [i] =>
    if !i.isEmpty && allDigits i then some (natOfDigits i) else none
  | [i, f] =>
    if (!i.isEmpty || !f.isEmpty) && allDigits i && allDigits f then
      some ((natOfDigits i : ℚ) + (natOfDigits f : ℚ) / (10 : ℚ) ^ f.length)
    else none
  | _ => none

/-- Model of Go `strconv.ParseFloat` restricted to plain decimal forms
(optional sign, digits, optional fractional part). Exotic accepted forms of
the real parser (exponents, hex floats, `Inf`, `NaN`, digit underscores) are
outside the model; on them, as on any malformed input, the model returns
`none` where Go returns an error (and a zero value). -/
def parseGoFloat (cs : List Char) : Option ℚ :=
  match cs with
  | [] => none
  | '+' :: rest => parseUnsignedQ rest
  | '-' :: rest => (parseUnsignedQ rest).map (fun q => -q)
  | _ => parseUnsignedQ cs

/-- Model of Go `strings.SplitN(s, sep, 3)` on character lists: at most three
pieces, the third keeping any further separators unsplit. -/
def goSplitN3 (sep : Char) (cs : List Char) : List (List Char) :=
  match cs.splitOn sep with
  | a :: b :: c :: rest => [a, b, List.intercalate [sep] (c :: rest)]
  | ps => ps

/-- Embedding of `parseHMS` (main.go): splits `"HH:MM:SS.ms"` on `:` into
exactly three fields, parses each as a float, and returns
`h*3600 + m*60 + sec`; any other shape or parse failure is an error
(`none`). -/
def parseHMS (cs : List Char) : Option ℚ :=
  match goSplitN3 ':' cs with
  | [p0, p1, p2] =>
    match parseGoFloat p0, parseGoFloat p1, parseGoFloat p2 with
    | some h, some m, some sec => some (h * 3600 + m * 60 + sec)
    | _, _, _ => none
  | _ => none

/-- The clamping applied to every computed percentage in
`startConversionCmd` (main.go): values below 0 become 0, values above 1
become 1. -/
def clamp01 (q : ℚ) : ℚ :=
  if q < 0 then 0 else if q > 1 then 1 else q

/-- Errors carried by `ffmpegErrMsg` values (the TUI model file declares
`ffmpegErrMsg error`). `canceled` stands for the `conversion canceled` error
sent when the context was canceled; `processErr` for the wrapped
`ffmpeg error: ...`. -/
inductive FfmpegErr
  | canceled
  | processErr (msg : String)
deriving DecidableEq

/-- The spec's `ProgressEvent` union, realised in the source by the message
types `progressMsg float64`, `ffmpegStatusMsg string` and
`ffmpegErrMsg error`. -/
inductive ProgressEvent
  | percent (p : ℚ)
  | statusLine (s : String)
  | failure (e : FfmpegErr)
deriving DecidableEq

/-- Embedding of the stderr-reader goroutine's per-line behaviour in
`startConversionCmd` (main.go lines 234-247): a line containing `frame=`,
`speed=` or `time=` is offered to the channel as one `ffmpegStatusMsg`
carrying the line verbatim; any other line produces nothing. The send is
non-blocking (`select` with `default`), so a full channel may drop the
event; this function models what the reader produces. -/
def stderrLineEvent (line : String) : Option ProgressEvent :=
  if goContains line "frame=" || goContains line "speed=" || goContains line "time=" then
    some (.statusLine line)
  else
    none

/-- Embedding of the stdout-reader goroutine's per-line behaviour in
`startConversionCmd` (main.go lines 248-287), including its exact branch
nesting: the `out_time=` fallback sits in the `else` of `if dur > 0` inside
the `out_time_ms=` branch, so it is reachable only for a line that starts
with `out_time_ms=` while `dur ≤ 0`. The parse error of
`strconv.ParseFloat` on the `out_time_ms=` payload is discarded (`ms, _ :=`),
leaving `ms = 0`. Sends are non-blocking; this models what the reader
produces. -/
def stdoutLineEventCore (dur : ℚ) (cs : List Char) : Option ProgressEvent :=
  if listStarts ("out_time_ms=".toList) cs then
    let val := cs.drop ("out_time_ms=".toList).length
    let ms : ℚ := (parseGoFloat val).getD 0
    if 0 < dur then
      some (.percent (clamp01 (ms / 1000 / dur)))
    else
      if listStarts ("out_time=".toList) cs then
        match parseHMS (cs.drop ("out_time=".toList).length) with
        | some tsec => if 0 < dur then some (.percent (clamp01 (tsec / dur))) else none
        | none => none
      else
        none
  else
    none

/-- The stdout-reader's per-line behaviour on a `String` line:
`stdoutLineEventCore` on its characters. -/
def stdoutLineEvent (dur : ℚ) (line : String) : Option ProgressEvent :=
  stdoutLineEventCore dur line.toList

/-- Outcome of the start sequence of `startConversionCmd` before any reader
runs. -/
inductive StartResult
  | probeErr
  | launched (dur : ℚ)
deriving DecidableEq

/-- Embedding of the duration gate in `startConversionCmd` (main.go lines
208-211): a probe error (`none`) or a probed duration `dur ≤ 0` returns an
`ffmpegErrMsg` (`ProbeError`) before the ffmpeg process is spawned; only a
positive duration proceeds to launch. -/
def startConversion (probe : Option ℚ) : StartResult :=
  match probe with
  | none => .probeErr
  | some dur => if dur ≤ 0 then .probeErr else .launched dur

/-- Events the exit-waiter goroutine sends after `cmd.Wait()` returns
(main.go lines 290-307). `waitErr = some msg` models a non-nil error from
`Wait`; `ctxCanceled` models `ctx.Err() == context.Canceled`. A clean exit
sends `progressMsg(1.0)` then `ffmpegStatusMsg("FINISHED_OK")`. -/
def exitWaiterEvents (waitErr : Option String) (ctxCanceled : Bool) : List ProgressEvent :=
  match waitErr with
  | some msg => if ctxCanceled then [.failure .canceled] else [.failure (.processErr msg)]
  | none => [.percent 1, .statusLine "FINISHED_OK"]

/-- An action on the message channel: a message send, or closing the
channel. -/
inductive ChanAct
  | send (e : ProgressEvent)
  | closeChan
deriving DecidableEq

/-- The exit-waiter's channel actions: its events followed by the single
`close(ch)` it performs on every branch (main.go lines 300 and 306 — the
only closes of the channel in the program, both in this goroutine, on
mutually exclusive paths). -/
def exitWaiterActs (waitErr : Option String) (ctxCanceled : Bool) : List ChanAct :=
  (exitWaiterEvents waitErr ctxCanceled).map .send ++ [.closeChan]

/-- Order-preserving merges of two concurrent goroutines' channel-action
sequences: each goroutine's own program order is kept, and the scheduler may
interleave them arbitrarily. The program provides no synchronization between
the pipe-reader goroutines and the exit-waiter — `cmd.Wait()` (main.go line
291) runs concurrently with the scanner goroutines and does not join them —
so any interleaving of their action sequences is an admissible channel
trace. (A send attempted after the close panics in Go; the trace records the
attempted actions.) -/
inductive Interleaving {α : Type} : List α → List α → List α → Prop
  | nil : Interleaving [] [] []
  | left : ∀ {x : α} {xs ys zs : List α},
      Interleaving xs ys zs → Interleaving (x :: xs) ys (x :: zs)
  | right : ∀ {y : α} {xs ys zs : List α},
      Interleaving xs ys zs → Interleaving xs (y :: ys) (y :: zs)

/-- The trace shape asserted for a clean, non-canceled exit: some reader
events — all `Percent` or `StatusLine` — then `Percent(1.0)`, then the
completion status `FINISHED_OK`, and only then the channel close. -/
def cleanExitShape (t : List ChanAct) : Prop :=
  ∃ pre : List ProgressEvent,
    (∀ e ∈ pre, (∃ p, e = .percent p) ∨ (∃ s, e = .statusLine s)) ∧
    t = pre.map .send ++
      [.send (.percent 1), .send (.statusLine "FINISHED_OK"), .closeChan]

/-- The trace shape asserted for a run canceled before exit: some reader
events — all `Percent` or `StatusLine` — then the terminal
`Failure(canceled)` with nothing after it but the channel close. -/
def cancelShape (t : List ChanAct) : Prop :=
  ∃ pre : List ProgressEvent,
    (∀ e ∈ pre, (∃ p, e = .percent p) ∨ (∃ s, e = .statusLine s)) ∧
    t = pre.map .send ++ [.send (.failure .canceled), .closeChan]

/-- The `screen` enumeration of the TUI model file. -/
inductive Screen
  | picker
  | format
  | confirm
  | running
  | done
  | error
deriving DecidableEq

/-- The fields of the TUI `model` struct that the Running screen reads or
writes, apart from the embedded bubbletea widgets (file picker, format list
and progress-bar animation state), which are rendering-only. -/
structure UIModel where
  screen : Screen
  percent : ℚ
  lastStatus : String
  err : Option String
  canceled : Bool
deriving DecidableEq

/-- The commands the Running screen returns to the bubbletea runtime:
nothing, `listen(m.progressChan)`, or `tea.Quit`. Widget-animation commands
are folded into `noCmd`. -/
inductive UICmd
  | noCmd
  | listenCmd
  | quitCmd
deriving DecidableEq

/-- Messages handled by the `screenRunning` case of `model.Update`:
`tea.WindowSizeMsg`, `progress.FrameMsg`, `progressMsg`, `ffmpegStatusMsg`,
`ffmpegErrMsg`, `startedMsg` and `tea.KeyMsg` (by its string form). -/
inductive RunningMsg
  | windowSize (w : ℤ)
  | frame
  | progressMsg (p : ℚ)
  | statusMsg (s : String)
  | errMsg (e : String)
  | started
  | keyMsg (k : String)
deriving DecidableEq

/-- Embedding of the `screenRunning` case of `model.Update` (TUI model file
lines 222-284). Progress-bar widget bookkeeping (`m.progress`) is dropped;
everything that touches `screen`, `percent`, `lastStatus`, `err` and
`canceled` is kept: `progressMsg` stores the fraction and re-listens,
`ffmpegStatusMsg` stores the status line and re-listens, `ffmpegErrMsg`
stores the error and switches to `screenError`, keys `ctrl+c`/`esc` cancel
and quit, and all other messages fall through with the screen unchanged. No
branch sets `screenDone`. -/
def updateRunning (m : UIModel) (msg : RunningMsg) : UIModel × UICmd :=
  match msg with
  | .windowSize _ => (m, .noCmd)
  | .frame => (m, .noCmd)
  | .progressMsg p => ({ m with percent := p }, .listenCmd)
  | .statusMsg s => ({ m with lastStatus := s }, .listenCmd)
  | .errMsg e => ({ m with err := some e, screen := .error }, .noCmd)
  | .started => (m, .listenCmd)
  | .keyMsg k =>
    if k = "ctrl+c" || k = "esc" then ({ m with canceled := true }, .quitCmd)
    else (m, .noCmd)

/-- Modelled from Go's `path/filepath.Clean` for Unix paths (the repository
calls `filepath.Dir` and `filepath.Join`, which clean lexically): resolve
`.` components, resolve `..` against preceding components, collapse
separator runs; an empty result is `.` (or `/` when rooted). -/
def pathClean (p : String) : String :=
  if p = "" then "."
  else
    let rooted := listStarts ("/".toList) p.toList
    let comps := (p.toList.splitOn '/').filter (fun c => !c.isEmpty && c ≠ ['.'])
    let stack := comps.foldl
      (fun stack c =>
        if c = ['.', '.'] then
          if rooted then stack.dropLast
          else if stack ≠ [] && stack.getLast? ≠ some ['.', '.'] then stack.dropLast
          else stack ++ [c]
        else stack ++ [c])
      ([] : List (List Char))
    let body := String.mk (List.intercalate ['/'] stack)
    if rooted then "/" ++ body
    else if body = "" then "." else body

/-- Modelled from Go's `path/filepath.Dir` (Unix): everything up to and
including the final separator, cleaned; `.` when the path holds no
separator. -/
def goDir (p : String) : String :=
  let cs := p.toList
  match (List.range cs.length).filter (fun i => cs.getD i ' ' = '/') |>.getLast? with
  | none => "."
  | some i => pathClean (String.mk (cs.take (i + 1)))

/-- Modelled from Go's `path/filepath.Base` (Unix): strip trailing
separators, then keep the part after the last separator; `.` for the empty
path, `/` for an all-separator path. -/
def goBase (p : String) : String :=
  if p = "" then "."
  else
    let cs := (p.toList.reverse.dropWhile (fun c => c = '/')).reverse
    if cs.isEmpty then "/"
    else
      match (cs.splitOn '/').getLast? with
      | some last => String.mk last
      | none => String.mk cs

/-- Helper for `goExt`: scan the reversed character list for the first `.`
before any separator, accumulating the extension. -/
def extFromRev : List Char → List Char → String
  | [], _ => ""
  | c :: rest, acc =>
    if c = '/' then ""
    else if c = '.' then String.mk ('.' :: acc)
    else extFromRev rest (c :: acc)

/-- Modelled from Go's `path/filepath.Ext`: the suffix of the final path
element starting at its last dot, or the empty string when the final element
holds no dot. -/
def goExt (p : String) : String :=
  extFromRev p.toList.reverse []

/-- Modelled from Go's `strings.TrimSuffix`: remove `tail` from the end of
`s` when present, else return `s` unchanged. -/
def goTrimEnd (s tail : String) : String :=
  if listStarts tail.toList.reverse s.toList.reverse then
    String.mk (s.toList.take (s.toList.length - tail.toList.length))
  else s

/-- Modelled from Go's `path/filepath.Join` on two elements: empty elements
are skipped, the rest joined with `/` and cleaned; all-empty input gives
the empty string. -/
def goJoin (a b : String) : String :=
  if a = "" && b = "" then ""
  else if a = "" then pathClean b
  else if b = "" then pathClean a
  else pathClean (a ++ "/" ++ b)

/-- Embedding of `defaultOutputPath` (main.go lines 158-178): directory and
base name of the input, extension stripped, then a per-format suffix —
`_h264.mp4`, `_prores.mov`, `_dnx.mxf`, `_48k.wav`, and `_out.mp4` for any
other tag. -/
def defaultOutputPath (input format : String) : String :=
  let path := goDir input
  let file := goBase input
  let ext := goExt file
  let base := goTrimEnd file ext
  let newName :=
    match format with
    | "h264" => base ++ "_h264.mp4"
    | "prores" => base ++ "_prores.mov"
    | "dnxhd" => base ++ "_dnx.mxf"
    | "wav" => base ++ "_48k.wav"
    | _ => base ++ "_out.mp4"
  goJoin path newName

/-- Embedding of `buildFFmpegArgs` (main.go lines 97-156): the per-format
ffmpeg argument table; unrecognized tags fall back to the h264 argument
set. -/
def buildFFmpegArgs (inputPath outputPath format : String) : List String :=
  match format with
  | "h264" =>
    ["-y", "-i", inputPath, "-c:v", "libx264", "-preset", "medium", "-crf", "20",
     "-c:a", "aac", "-b:a", "192k", outputPath]
  | "prores" =>
    ["-y", "-i", inputPath, "-c:v", "prores_ks", "-profile:v", "3",
     "-pix_fmt", "yuv422p10le", "-c:a", "pcm_s16le", outputPath]
  | "dnxhd" =>
    ["-y", "-i", inputPath, "-c:v", "dnxhd", "-b:v", "185M",
     "-pix_fmt", "yuv422p", "-c:a", "pcm_s16le", outputPath]
  | "wav" =>
    ["-y", "-i", inputPath, "-vn", "-ar", "48000", "-ac", "2",
     "-c:a", "pcm_s16le", outputPath]
  | _ =>
    ["-y", "-i", inputPath, "-c:v", "libx264", "-preset", "medium", "-crf", "20",
     "-c:a", "aac", "-b:a", "192k", outputPath]

/-- Modelled from Go's `flag` package: a flag variable holds the value given
on the command line only once `flag.Parse()` has run; before that it keeps
its registered default. `cmdline` maps flag names to the values supplied on
the command line. -/
def flagValue (parseCalled : Bool) (cmdline : List (String × String))
    (name dflt : String) : String :=
  if parseCalled then ((cmdline.lookup name).getD dflt) else dflt

/-- Embedding of the output-path selection in `main` (main.go lines 34 and
42-47): the `out` flag is registered with default `""`, but `flag.Parse()`
is commented out (main.go line 16), so the flag variable is read without
ever being parsed; a value of `""` selects the derived default path. -/
def mainOutputPath (cmdline : List (String × String)) (inputValue format : String) : String :=
  let outFlagVal := flagValue false cmdline "out" ""
  if outFlagVal = "" then defaultOutputPath inputValue format else outFlagVal

section

attribute [local semireducible] Rat.mul Rat.add Rat.inv

example : parseHMS ("00:02:05.00".toList) = some 125 := by decide
example : parseGoFloat ("125000".toList) = some 125000 := by decide
example : parseGoFloat ("abc".toList) = none := by decide
example : clamp01 ((125000 / 1000) / 250) = 1 / 2 := by decide
example : defaultOutputPath "/home/videos/clip.mov" "wav" = "/home/videos/clip_48k.wav" := by decide
example : defaultOutputPath "clip.mov" "h264" = "clip_h264.mp4" := by decide
example : stdoutLineEvent 250 "out_time_ms=125000" = some (.percent (1/2)) := by decide
example : stdoutLineEvent 250 "out_time=00:02:05.00" = none := by decide
example : stdoutLineEvent 250 "garbage=1234" = none := by decide
example : stdoutLineEvent 250 "out_time_ms=abc" = some (.percent 0) := by decide
example : stderrLineEvent "frame=120 fps=30 speed=1.02x time=00:00:04.00"
    = some (.statusLine "frame=120 fps=30 speed=1.02x time=00:00:04.00") := by decide

/-- The clamp used on every computed percentage never returns a value below
zero. -/
theorem clamp01_nonneg (q : ℚ) : 0 ≤ clamp01 q := by
  unfold clamp01
  split
  · exact le_refl 0
  · split
    · exact zero_le_one
    · linarith [not_lt.mp (by assumption : ¬q < 0)]

/-- The clamp used on every computed percentage never returns a value above
one. -/
theorem clamp01_le_one (q : ℚ) : clamp01 q ≤ 1 := by
  unfold clamp01
  split
  · exact zero_le_one
  · split
    · exact le_refl 1
    · linarith [not_lt.mp (by assumption : ¬q > 1)]

/-- Every event the stderr reader produces is a `StatusLine` carrying the
line itself. -/
theorem stderrLineEvent_shape (line : String) (e : ProgressEvent)
    (h : stderrLineEvent line = some e) : e = .statusLine line := by
  unfold stderrLineEvent at h
  split at h
  · exact (Option.some_inj.mp h).symm
  · exact absurd h (by simp)

/-- Every event the stdout reader produces is a `Percent` whose value lies
in `[0, 1]`. -/
theorem stdoutLineEventCore_shape (dur : ℚ) (cs : List Char) (e : ProgressEvent)
    (h : stdoutLineEventCore dur cs = some e) :
    ∃ p, e = .percent p ∧ 0 ≤ p ∧ p ≤ 1 := by
  simp only [stdoutLineEventCore] at h
  split at h
  · split at h
    · exact ⟨_, (Option.some_inj.mp h).symm, clamp01_nonneg _, clamp01_le_one _⟩
    · split at h
      · split at h
        · exact Option.noConfusion h
        · exact Option.noConfusion h
      · exact Option.noConfusion h
  · exact Option.noConfusion h

/-- `String` version of `stdoutLineEventCore_shape`. -/
theorem stdoutLineEvent_shape (dur : ℚ) (line : String) (e : ProgressEvent)
    (h : stdoutLineEvent dur line = some e) :
    ∃ p, e = .percent p ∧ 0 ≤ p ∧ p ≤ 1 :=
  stdoutLineEventCore_shape dur line.toList e h

/-- A character list always begins with itself, whatever follows. -/
theorem listStarts_self_app (pat rest : List Char) :
    listStarts pat (pat ++ rest) = true := by
  induction pat with
  | nil => rfl
  | cons p ps ih => simp [listStarts, ih]

/-- Reader-delivered events are all `Percent` or `StatusLine` events, and
`Percent` values are clamped. -/
theorem pre_events_shape (dur : ℚ) (errLines outLines : List String)
    (pre : List ProgressEvent)
    (hpre : ∀ e ∈ pre, e ∈ errLines.filterMap stderrLineEvent ∨
      e ∈ outLines.filterMap (stdoutLineEvent dur)) :
    ∀ e ∈ pre, (∃ p, e = .percent p) ∨ (∃ s, e = .statusLine s) := by
  intro e he
  rcases hpre e he with h | h
  · rw [List.mem_filterMap] at h
    obtain ⟨line, _, hline⟩ := h
    exact Or.inr ⟨line, stderrLineEvent_shape line e hline⟩
  · rw [List.mem_filterMap] at h
    obtain ⟨line, _, hline⟩ := h
    obtain ⟨p, hp, _, _⟩ := stdoutLineEvent_shape dur line e hline
    exact Or.inl ⟨p, hp⟩

/-- Reader-delivered events are never `Failure` events. -/
theorem pre_events_no_failure (dur : ℚ) (errLines outLines : List String)
    (pre : List ProgressEvent)
    (hpre : ∀ e ∈ pre, e ∈ errLines.filterMap stderrLineEvent ∨
      e ∈ outLines.filterMap (stdoutLineEvent dur)) :
    ∀ e ∈ pre, ∀ err, e ≠ .failure err := by
  intro e he err
  rcases pre_events_shape dur errLines outLines pre hpre e he with ⟨p, hp⟩ | ⟨s, hs⟩
  · subst hp; exact fun h => ProgressEvent.noConfusion h
  · subst hs; exact fun h => ProgressEvent.noConfusion h

/-- A send action is never a close action, so a trace of sends counts no
closes. -/
theorem count_close_map_send (pre : List ProgressEvent) :
    (pre.map ChanAct.send).count ChanAct.closeChan = 0 := by
  rw [List.count_eq_zero]
  intro h
  obtain ⟨e, _, he⟩ := List.mem_map.mp h
  exact ChanAct.noConfusion he

/-- Counts distribute over interleavings: each element of the merge comes
from exactly one of the two goroutines. -/
theorem interleaving_count {α : Type} [BEq α] (a : α) {xs ys zs : List α}
    (h : Interleaving xs ys zs) : zs.count a = xs.count a + ys.count a := by
  induction h with
  | nil => rfl
  | left h ih => rw [List.count_cons, List.count_cons, ih]; ring
  | right h ih => rw [List.count_cons, List.count_cons, ih]; ring

/-- C1 (divergence witness): the exit-waiter itself does send
`Percent(1.0)`, then `FINISHED_OK`, then the single close, and every
admissible schedule closes the channel exactly once (the waiter is the sole
closer); the intended schedule — readers done first — has the claimed
shape, but because `cmd.Wait()` is not synchronized with the reader
goroutines, a schedule in which the stderr reader's send of a genuinely
produced status event lands after the waiter's `Percent(1.0)` is also
admissible, and its trace violates the claimed sequence. -/
theorem clean_exit_order_race :
    (∀ c : Bool, exitWaiterActs none c =
      [.send (.percent 1), .send (.statusLine "FINISHED_OK"), .closeChan])
    ∧ (∀ (pre : List ProgressEvent) (t : List ChanAct) (c : Bool),
        Interleaving (pre.map .send) (exitWaiterActs none c) t →
          t.count .closeChan = 1)
    ∧ cleanExitShape
        ([ProgressEvent.statusLine "frame=1 time=00:00:01.00"].map ChanAct.send
          ++ exitWaiterActs none false)
    ∧ stderrLineEvent "frame=1 time=00:00:01.00"
        = some (.statusLine "frame=1 time=00:00:01.00")
    ∧ Interleaving
        ([ProgressEvent.statusLine "frame=1 time=00:00:01.00"].map ChanAct.send)
        (exitWaiterActs none false)
        [.send (.percent 1), .send (.statusLine "frame=1 time=00:00:01.00"),
         .send (.statusLine "FINISHED_OK"), .closeChan]
    ∧ ¬ cleanExitShape
        [.send (.percent 1), .send (.statusLine "frame=1 time=00:00:01.00"),
         .send (.statusLine "FINISHED_OK"), .closeChan] := by
  refine ⟨fun c => rfl, ?_, ?_, by decide, ?_, ?_⟩
  · intro pre t c hint
    have hc := interleaving_count ChanAct.closeChan hint
    rw [count_close_map_send] at hc
    rw [hc]
    rfl
  · refine ⟨[ProgressEvent.statusLine "frame=1 time=00:00:01.00"], ?_, rfl⟩
    intro e he
    rw [List.mem_singleton] at he
    exact Or.inr ⟨_, he⟩
  · exact .right (.left (.right (.right .nil)))
  · rintro ⟨pre, -, heq⟩
    have hlen : pre.length = 1 := by
      have h4 := congrArg List.length heq
      simp at h4
      omega
    obtain ⟨x, hx⟩ := List.length_eq_one.mp hlen
    subst hx
    simp at heq

/-- Witness for C1's universal conjunct: the race schedule's trace still
closes the channel exactly once. -/
theorem clean_exit_order_race_witness :
    ([ChanAct.send (.percent 1),
      ChanAct.send (.statusLine "frame=1 time=00:00:01.00"),
      ChanAct.send (.statusLine "FINISHED_OK"),
      ChanAct.closeChan] : List ChanAct).count .closeChan = 1 :=
  clean_exit_order_race.2.1 [.statusLine "frame=1 time=00:00:01.00"]
    [.send (.percent 1), .send (.statusLine "frame=1 time=00:00:01.00"),
     .send (.statusLine "FINISHED_OK"), .closeChan] false
    (.right (.left (.right (.right .nil))))

/-- C2 (divergence witness): on cancellation before exit the exit-waiter
sends `Failure(canceled)` and then the single close; every admissible
schedule has exactly one close and — when the reader events come from the
stream parsers — exactly one `Failure(canceled)`; the intended schedule has
the claimed shape, but a schedule in which the stdout reader's send of a
genuinely produced `Percent` event lands between `Failure(canceled)` and
the close is also admissible, and its trace violates the claim's "no
further events follow it". -/
theorem cancel_failure_race :
    (∀ msg : String, exitWaiterActs (some msg) true =
      [.send (.failure .canceled), .closeChan])
    ∧ (∀ (pre : List ProgressEvent) (t : List ChanAct) (msg : String),
        Interleaving (pre.map .send) (exitWaiterActs (some msg) true) t →
          t.count .closeChan = 1)
    ∧ (∀ (dur : ℚ) (errLines outLines : List String) (pre : List ProgressEvent)
        (t : List ChanAct) (msg : String),
        (∀ e ∈ pre, e ∈ errLines.filterMap stderrLineEvent ∨
          e ∈ outLines.filterMap (stdoutLineEvent dur)) →
        Interleaving (pre.map .send) (exitWaiterActs (some msg) true) t →
          t.count (.send (.failure .canceled)) = 1)
    ∧ cancelShape
        ([ProgressEvent.percent (1/2)].map ChanAct.send
          ++ exitWaiterActs (some "signal: killed") true)
    ∧ stdoutLineEvent 250 "out_time_ms=125000" = some (.percent (1/2))
    ∧ Interleaving ([ProgressEvent.percent (1/2)].map ChanAct.send)
        (exitWaiterActs (some "signal: killed") true)
        [.send (.failure .canceled), .send (.percent (1/2)), .closeChan]
    ∧ ¬ cancelShape
        [.send (.failure .canceled), .send (.percent (1/2)), .closeChan] := by
  refine ⟨fun msg => rfl, ?_, ?_, ?_, by decide, ?_, ?_⟩
  · intro pre t msg hint
    have hc := interleaving_count ChanAct.closeChan hint
    rw [count_close_map_send] at hc
    rw [hc]
    rfl
  · intro dur errLines outLines pre t msg hpre hint
    have hc := interleaving_count (ChanAct.send (.failure .canceled)) hint
    have h0 : (pre.map ChanAct.send).count (ChanAct.send (.failure .canceled)) = 0 := by
      rw [List.count_eq_zero]
      intro hmem
      obtain ⟨e, he, heq⟩ := List.mem_map.mp hmem
      have he2 : e = .failure .canceled := by
        cases heq
        rfl
      exact pre_events_no_failure dur errLines outLines pre hpre e he .canceled he2
    rw [hc, h0]
    rfl
  · refine ⟨[ProgressEvent.percent (1/2)], ?_, rfl⟩
    intro e he
    rw [List.mem_singleton] at he
    exact Or.inl ⟨_, he⟩
  · exact .right (.left (.right .nil))
  · rintro ⟨pre, -, heq⟩
    have hlen : pre.length = 1 := by
      have h3 := congrArg List.length heq
      simp at h3
      omega
    obtain ⟨x, hx⟩ := List.length_eq_one.mp hlen
    subst hx
    simp at heq

/-- Witness for C2's universal conjuncts: the race schedule's trace still
has exactly one close and exactly one `Failure(canceled)`. -/
theorem cancel_failure_race_witness :
    ([ChanAct.send (.failure .canceled), ChanAct.send (.percent (1/2)),
      ChanAct.closeChan] : List ChanAct).count .closeChan = 1
    ∧ ([ChanAct.send (.failure .canceled), ChanAct.send (.percent (1/2)),
      ChanAct.closeChan] : List ChanAct).count (.send (.failure .canceled)) = 1 :=
  ⟨cancel_failure_race.2.1 [.percent (1/2)]
    [.send (.failure .canceled), .send (.percent (1/2)), .closeChan]
    "signal: killed" (.right (.left (.right .nil))),
   cancel_failure_race.2.2.1 250 [] ["out_time_ms=125000"] [.percent (1/2)]
    [.send (.failure .canceled), .send (.percent (1/2)), .closeChan]
    "signal: killed" (by decide) (.right (.left (.right .nil)))⟩

/-- C3: every `Percent` value computed from elapsed milliseconds or parsed
seconds and the probed duration lies in `[0, 1]`; the duration gate rejects
a probe failure or a non-positive probed duration before the ffmpeg process
is spawned, so the divisor of a launched run is always positive. -/
theorem percent_values_clamped :
    (∀ dur : ℚ, dur ≤ 0 → startConversion (some dur) = .probeErr)
    ∧ startConversion none = .probeErr
    ∧ (∀ dur : ℚ, 0 < dur → ∃ d, startConversion (some dur) = .launched d ∧ 0 < d)
    ∧ (∀ ms dur : ℚ,
        0 ≤ clamp01 (ms / 1000 / dur) ∧ clamp01 (ms / 1000 / dur) ≤ 1)
    ∧ (∀ tsec dur : ℚ, 0 ≤ clamp01 (tsec / dur) ∧ clamp01 (tsec / dur) ≤ 1)
    ∧ (∀ (dur : ℚ) (line : String) (e : ProgressEvent),
        stdoutLineEvent dur line = some e →
          ∃ p, e = .percent p ∧ 0 ≤ p ∧ p ≤ 1) := by
  refine ⟨?_, rfl, ?_, ?_, ?_, stdoutLineEvent_shape⟩
  · intro dur h
    simp [startConversion, h]
  · intro dur h
    refine ⟨dur, ?_, h⟩
    simp [startConversion, not_le.mpr h]
  · exact fun ms dur => ⟨clamp01_nonneg _, clamp01_le_one _⟩
  · exact fun tsec dur => ⟨clamp01_nonneg _, clamp01_le_one _⟩

/-- Witness for C3 at concrete values: a zero duration is rejected, a
positive duration launches, and a concrete parsed line yields a clamped
percent. -/
theorem percent_values_clamped_witness :
    startConversion (some 0) = .probeErr
    ∧ (0 ≤ clamp01 ((125000 : ℚ) / 1000 / 250) ∧ clamp01 ((125000 : ℚ) / 1000 / 250) ≤ 1)
    ∧ (∃ p, ProgressEvent.percent (1/2) = .percent p ∧ 0 ≤ p ∧ p ≤ 1) :=
  ⟨percent_values_clamped.1 0 (le_refl 0),
   percent_values_clamped.2.2.2.1 125000 250,
   percent_values_clamped.2.2.2.2.2 250 "out_time_ms=125000" (.percent (1/2)) (by decide)⟩

/-- C4 (divergence witness): the `out_time=` fallback of the stdout reader
is dead code — its branch sits inside the `out_time_ms=` branch, and no line
starting with `out_time=` also starts with `out_time_ms=` — so a line
`out_time=00:02:05.00` with duration 250 produces no event, while `parseHMS`
would give 125 seconds, whose clamped ratio is exactly the claimed 0.5. -/
theorem out_time_branch_unreachable :
    (∀ (dur : ℚ) (rest : List Char),
      stdoutLineEventCore dur ("out_time=".toList ++ rest) = none)
    ∧ stdoutLineEvent 250 "out_time=00:02:05.00" = none
    ∧ parseHMS ("00:02:05.00".toList) = some 125
    ∧ clamp01 ((125 : ℚ) / 250) = 1 / 2 :=
  ⟨fun _ _ => rfl, by decide, by decide, by decide⟩

/-- C5 (counterexample to the claim as stated): an `out_time_ms=` line whose
numeric payload fails to parse is not ignored — the discarded parse error
leaves `ms = 0` and a `Percent(0)` event is emitted. -/
theorem malformed_ms_payload_counterexample :
    stdoutLineEvent 250 "out_time_ms=abc" = some (.percent 0) := by
  decide

/-- C5 (amended): a stdout line that does not start with `out_time_ms=` —
in particular any line matching neither progress pattern, such as
`garbage=1234` — produces no event; but an `out_time_ms=` line with an
unparsable payload emits `Percent(0)`, because the parse error is
discarded. -/
theorem malformed_line_handling :
    (∀ (dur : ℚ) (line : String),
      listStarts ("out_time_ms=".toList) line.toList = false →
        stdoutLineEvent dur line = none)
    ∧ stdoutLineEvent 250 "garbage=1234" = none
    ∧ stdoutLineEvent 250 "out_time=00:02:05.00" = none
    ∧ stdoutLineEvent 250 "out_time_ms=abc" = some (.percent 0) := by
  refine ⟨?_, by decide, by decide, by decide⟩
  intro dur line h
  unfold stdoutLineEvent stdoutLineEventCore
  rw [h]
  rfl

/-- Witness for C5 (amended) at a concrete non-matching line. -/
theorem malformed_line_handling_witness :
    stdoutLineEvent 250 "progress=continue" = none :=
  malformed_line_handling.1 250 "progress=continue" (by decide)

/-- C6: a stdout line `out_time_ms=<integer>` is parsed by dividing the
integer by 1000 and then by the probed duration, clamping to `[0, 1]`, and
emitting the result as a `Percent` event; concretely, `out_time_ms=125000`
with duration 250 yields exactly `Percent(0.5)`. -/
theorem out_time_ms_percent_formula (dur : ℚ) (val : List Char) (n : ℕ)
    (hval : parseGoFloat val = some (n : ℚ)) (hdur : 0 < dur) :
    stdoutLineEventCore dur ("out_time_ms=".toList ++ val) =
      some (.percent (clamp01 ((n : ℚ) / 1000 / dur)))
    ∧ stdoutLineEvent 250 "out_time_ms=125000" = some (.percent (1/2)) := by
  refine ⟨?_, by decide⟩
  unfold stdoutLineEventCore
  rw [listStarts_self_app, if_pos rfl, List.drop_left]
  simp only [hval, Option.getD_some]
  rw [if_pos hdur]

/-- Witness for C6 at the concrete payload `125000` and duration 250. -/
theorem out_time_ms_percent_formula_witness :
    stdoutLineEventCore 250 ("out_time_ms=".toList ++ "125000".toList) =
      some (.percent (clamp01 ((125000 : ℚ) / 1000 / 250)))
    ∧ stdoutLineEvent 250 "out_time_ms=125000" = some (.percent (1/2)) :=
  out_time_ms_percent_formula 250 ("125000".toList) 125000 (by decide) (by decide)

/-- C7 (divergence witness): in the Running state the UI consumes events one
at a time — a `progressMsg` stores the fraction and re-listens, an
`ffmpegStatusMsg` stores the last-seen status line and re-listens, and an
`ffmpegErrMsg` switches to the Error screen — but no message ever moves the
screen to Done: every Running-state update leaves the screen unchanged or
sets it to Error, so the success completion event `FINISHED_OK` leaves the
machine in Running. -/
theorem running_screen_transitions :
    (∀ (m : UIModel) (p : ℚ),
      updateRunning m (.progressMsg p) = ({ m with percent := p }, .listenCmd))
    ∧ (∀ (m : UIModel) (s : String),
      updateRunning m (.statusMsg s) = ({ m with lastStatus := s }, .listenCmd))
    ∧ (∀ (m : UIModel) (e : String),
      updateRunning m (.errMsg e) = ({ m with err := some e, screen := .error }, .noCmd))
    ∧ (∀ (m : UIModel) (msg : RunningMsg),
      (updateRunning m msg).1.screen = m.screen ∨ (updateRunning m msg).1.screen = .error)
    ∧ (updateRunning ⟨.running, 1, "", none, false⟩ (.statusMsg "FINISHED_OK")).1.screen
        = .running := by
  refine ⟨fun m p => rfl, fun m s => rfl, fun m e => rfl, ?_, rfl⟩
  intro m msg
  cases msg with
  | windowSize w => exact Or.inl rfl
  | frame => exact Or.inl rfl
  | progressMsg p => exact Or.inl rfl
  | statusMsg s => exact Or.inl rfl
  | errMsg e => exact Or.inr rfl
  | started => exact Or.inl rfl
  | keyMsg k =>
    simp only [updateRunning]
    split
    · exact Or.inl rfl
    · exact Or.inl rfl

/-- C8 (divergence witness): `flag.Parse()` is never called, so the value
supplied for `-out` on the command line is never consulted — the output path
is always the derived default, even when `-out` is supplied. -/
theorem out_flag_ignored :
    (∀ (cmdline : List (String × String)) (input format : String),
      mainOutputPath cmdline input format = defaultOutputPath input format)
    ∧ mainOutputPath [("out", "custom.mp4")] "clip.mov" "h264" = "clip_h264.mp4"
    ∧ mainOutputPath [("out", "custom.mp4")] "clip.mov" "h264" ≠ "custom.mp4" :=
  ⟨fun _ _ _ => rfl, by decide, by decide⟩

/-- C9: a stderr line containing `frame=`, `speed=` or `time=` is forwarded
as exactly one `StatusLine` event carrying the line verbatim, and a stderr
line containing none of those substrings produces no event. -/
theorem stderr_status_forwarding (line : String) :
    ((goContains line "frame=" || goContains line "speed=" || goContains line "time=") = true →
      [line].filterMap stderrLineEvent = [.statusLine line])
    ∧ ((goContains line "frame=" || goContains line "speed=" || goContains line "time=") = false →
      [line].filterMap stderrLineEvent = []) := by
  constructor
  · intro h
    simp [stderrLineEvent, h]
  · intro h
    simp only [Bool.or_eq_false_iff] at h
    simp [stderrLineEvent, h.1.1, h.1.2, h.2]

/-- Witness for C9 at the spec's concrete status line and at a line with no
status substring. -/
theorem stderr_status_forwarding_witness :
    [("frame=120 fps=30 speed=1.02x time=00:00:04.00" : String)].filterMap stderrLineEvent
      = [.statusLine "frame=120 fps=30 speed=1.02x time=00:00:04.00"]
    ∧ [("Press q to stop" : String)].filterMap stderrLineEvent = [] :=
  ⟨(stderr_status_forwarding "frame=120 fps=30 speed=1.02x time=00:00:04.00").1 (by decide),
   (stderr_status_forwarding "Press q to stop").2 (by decide)⟩

/-- C10: for a format tag outside `h264`, `prores`, `dnxhd` and `wav`, the
default output path falls back to the input's directory joined with its base
name (extension stripped) plus `_out.mp4`, while the argument builder falls
back to the full h264 argument set for the same tag. -/
theorem fallback_naming_divergence (input out tag : String)
    (h : tag ∉ (["h264", "prores", "dnxhd", "wav"] : List String)) :
    defaultOutputPath input tag =
      goJoin (goDir input)
        (goTrimEnd (goBase input) (goExt (goBase input)) ++ "_out.mp4")
    ∧ buildFFmpegArgs input out tag = buildFFmpegArgs input out "h264" := by
  simp only [List.mem_cons, List.not_mem_nil, or_false, not_or] at h
  obtain ⟨h1, h2, h3, h4⟩ := h
  constructor
  · unfold defaultOutputPath
    split
    · exact absurd rfl h1
    · exact absurd rfl h2
    · exact absurd rfl h3
    · exact absurd rfl h4
    · rfl
  · unfold buildFFmpegArgs
    split
    · exact absurd rfl h1
    · exact absurd rfl h2
    · exact absurd rfl h3
    · exact absurd rfl h4
    · rfl

/-- Witness for C10 at the tag `avi` and input `clip.mov`. -/
theorem fallback_naming_divergence_witness :
    defaultOutputPath "clip.mov" "avi" =
      goJoin (goDir "clip.mov")
        (goTrimEnd (goBase "clip.mov") (goExt (goBase "clip.mov")) ++ "_out.mp4")
    ∧ buildFFmpegArgs "clip.mov" "o.mp4" "avi" = buildFFmpegArgs "clip.mov" "o.mp4" "h264" :=
  fallback_naming_divergence "clip.mov" "o.mp4" "avi" (by decide)

end
